import Mathlib

/-!
Shallow embedding of the GoPray scheduler core (main.go of the GoPray
repository).  Instants and durations are modelled as `Int` nanoseconds
(Go's `time.Duration` is an int64 nanosecond count; the values arising
here are far below the int64 range, so plain integers are faithful).
An instant is measured from today's local midnight, matching the code's
use of `time.Date(now.Year(), now.Month(), now.Day(), h, m, 0, 0, loc)`.
-/

namespace GoPray

/-- Go `time.Duration`: a count of nanoseconds. -/
abbrev GoDuration := Int

/-- Go `time.Second` in nanoseconds. -/
def Second : GoDuration := 1000000000

/-- Go `time.Minute` in nanoseconds. -/
def Minute : GoDuration := 60 * Second

/-- The `ReminderConfig` struct of main.go. -/
structure ReminderConfig where
  Message : String
  Reminder : Int
  Command : List String
  Sound : String
deriving Repr, DecidableEq

/-- The Go zero value of `ReminderConfig` (empty strings, 0, nil slice). -/
def ReminderConfig.zero : ReminderConfig := ⟨"", 0, [], ""⟩

/-- The `PrayerConfig` struct of main.go: an embedded `ReminderConfig`
(field `base` here) plus `Before` and `After` reminder specs. -/
structure PrayerConfig where
  base : ReminderConfig
  Before : ReminderConfig
  After : ReminderConfig
deriving Repr, DecidableEq

/-- The Go zero value of `PrayerConfig`. -/
def PrayerConfig.zero : PrayerConfig := ⟨.zero, .zero, .zero⟩

/-- The `Config` map of main.go (`map[string]PrayerConfig`), modelled as an
association list. -/
abbrev Config := List (String × PrayerConfig)

/-- Go map indexing `config[name]`: the stored value when the key is
present, the zero value otherwise. -/
def Config.get (c : Config) (name : String) : PrayerConfig :=
  match c.find? (fun kv => kv.1 == name) with
  | some kv => kv.2
  | none => PrayerConfig.zero

/-- One `(name, time)` row of the timetable (`Prayer` struct). -/
structure Prayer where
  Name : String
  Time : String
deriving Repr, DecidableEq

/-- The `PrayerTimes` struct (with its embedded `Metadata`). -/
structure PrayerTimes where
  LastUpdate : String
  CityName : String
  CityID : Int
  Times : List Prayer
deriving Repr, DecidableEq

/-- The Go zero value of `PrayerTimes`. -/
def PrayerTimes.zero : PrayerTimes := ⟨"", "", 0, []⟩

/-- The `PrayerDuration` struct: one planned event.  `state` is one of
"before", "at", "after" as in the code. -/
structure PrayerDuration where
  Name : String
  Duration : GoDuration
  state : String
deriving Repr, DecidableEq

/-- The Go zero value of `PrayerDuration`, the "absent" next prayer the
menu code tests against (`next_prayer != (PrayerDuration{})`). -/
def PrayerDuration.zero : PrayerDuration := ⟨"", 0, ""⟩

/-- Numeric value of a decimal digit character. -/
def digitVal (c : Char) : Nat := c.toNat - '0'.toNat

/-- Go `time.Parse("3:04 PM", s)`, restricted to the fields the code
reads (hour and minute): hour is one or two digits and must be at most
12, then a literal colon, exactly two minute digits below 60, a literal
space and an upper-case "PM" or "AM", with no trailing text.  After
parsing, PM adds 12 to hours below 12 and AM maps hour 12 to 0, exactly
as in Go's date parsing.  Returns `(hour24, minute)` or `none` on any
parse error. -/
def parseClock12 (s : List Char) : Option (Nat × Nat) :=
  match s with
  | [] => none
  | c1 :: rest1 =>
    if c1.isDigit then
      let hrest : Nat × List Char :=
        match rest1 with
        | c2 :: rest2 =>
          if c2.isDigit then (10 * digitVal c1 + digitVal c2, rest2)
          else (digitVal c1, c2 :: rest2)
        | [] => (digitVal c1, [])
      if hrest.1 > 12 then none
      else
        match hrest.2 with
        | ':' :: d1 :: d2 :: rest3 =>
          if d1.isDigit && d2.isDigit then
            let m := 10 * digitVal d1 + digitVal d2
            if m ≥ 60 then none
            else
              match rest3 with
              | [' ', 'P', 'M'] =>
                some (if hrest.1 < 12 then hrest.1 + 12 else hrest.1, m)
              | [' ', 'A', 'M'] =>
                some (if hrest.1 = 12 then 0 else hrest.1, m)
              | _ => none
          else none
        | _ => none
    else none

/-- The instant (nanoseconds from today's local midnight) built by
`time.Date(now.Year(), now.Month(), now.Day(), hour, minute, 0, 0, loc)`. -/
def atInstant (hm : Nat × Nat) : GoDuration :=
  ((hm.1 : Int) * 3600 + (hm.2 : Int) * 60) * Second

/-- Loop body of `getPrayerDurations` for one timetable row: parse the
time-of-day, form the at-instant on today's date, and emit the before /
at / after events under the code's guards.  `none` models the
`return nil, err` taken on a parse error. -/
def eventsFor (config : Config) (now : GoDuration) (p : Prayer) :
    Option (List PrayerDuration) :=
  match parseClock12 p.Time.data with
  | none => none
  | some hm =>
    let prayer_duration : GoDuration := atInstant hm - now
    let before_reminder : GoDuration := (Config.get config p.Name).Before.Reminder * Minute
    let dBefore := prayer_duration - before_reminder
    let evBefore : List PrayerDuration :=
      if dBefore > 0 ∧ before_reminder > 0 then [⟨p.Name, dBefore, "before"⟩] else []
    let evAt : List PrayerDuration :=
      if prayer_duration > 0 then [⟨p.Name, prayer_duration, "at"⟩] else []
    let after_reminder : GoDuration := (Config.get config p.Name).After.Reminder * Minute
    let dAfter := prayer_duration + after_reminder
    let evAfter : List PrayerDuration :=
      if dAfter > 0 ∧ after_reminder > 0 then [⟨p.Name, dAfter, "after"⟩] else []
    some (evBefore ++ evAt ++ evAfter)

/-- The accumulation loop of `getPrayerDurations`: events of all rows in
row order; the whole computation fails on the first row whose time does
not parse (the code's `return nil, err`). -/
def planDurations (config : Config) (now : GoDuration) :
    List Prayer → Except Unit (List PrayerDuration)
  | [] => .ok []
  | p :: rest =>
    match eventsFor config now p with
    | none => .error ()
    | some evs =>
      match planDurations config now rest with
      | .error e => .error e
      | .ok l => .ok (evs ++ l)

/-- Insert one event into a list sorted ascending by `Duration`, before
the first strictly larger element (hence after nothing smaller and
before no equal element). -/
def insertDur (a : PrayerDuration) : List PrayerDuration → List PrayerDuration
  | [] => [a]
  | b :: l => if a.Duration ≤ b.Duration then a :: b :: l else b :: insertDur a l

/-- The `sort.Slice(prayer_durations, Duration <)` call.  `sort.Slice` is
documented unstable, so for equal-duration events it guarantees only some
duration-sorted permutation of its input; any executable model must pick
one, and this one is an insertion sort.  The choice is exact for slices
shorter than 12 elements — Go's pdqsort dispatches to its insertion sort
below that length, and an insertion sort driven by the strict
`Duration <` comparison never reorders equal elements — and on longer
slices only the sortedness and permutation properties of this function
(proved below) are properties of the program; no theorem in this file
relies on the relative order of equal-duration events outside the
short-slice regime. -/
def sortByDuration (l : List PrayerDuration) : List PrayerDuration :=
  l.foldr insertDur []

/-- The `next_prayer` update at the end of `getPrayerDurations`: the
first event with state "at" in the sorted list; when none exists (or the
list is empty) the global keeps its previous value `old`. -/
def updatedNext (sorted : List PrayerDuration) (old : PrayerDuration) : PrayerDuration :=
  if sorted.isEmpty then old
  else
    match sorted.find? (fun pd => pd.state == "at") with
    | some pd => pd
    | none => old

/-- `getPrayerDurations(prayer_times)` of main.go, also returning the
value the global `next_prayer` holds afterwards (`old` being its value
before the call).  `now` is the current instant; the code re-reads
`time.Now()` every iteration, abstracted here as one fixed instant. -/
def getPrayerDurations (config : Config) (now : GoDuration) (pt : PrayerTimes)
    (old : PrayerDuration) : Except Unit (List PrayerDuration × PrayerDuration) :=
  match planDurations config now pt.Times with
  | .error e => .error e
  | .ok l =>
    let sorted := sortByDuration l
    .ok (sorted, updatedNext sorted old)

/-! ## Timetable refresh (the fetch stage of `runMain`) -/

/-- Outcomes of the external collaborators consulted while refreshing
the timetable, each `Except Unit` standing for success or failure of the
corresponding network call, plus the result of saving the file. -/
structure FetchEnv where
  cityName : Except Unit String
  cityID : Except Unit Int
  fetched : Except Unit PrayerTimes
  saveOk : Bool

/-- The timetable-acquisition stage of `runMain` (reading the cached
file, then the staleness check and the three-step fetch).  `stored` is
the result of `readJSON` (whose Go zero value is returned alongside an
error), `today` the current date string.  Returns the value the global
`prayer_times` holds afterwards and whether `runMain` proceeds past this
stage (`false` models the early `return` after a logged error). -/
def refreshPrayerTimes (stored : Except Unit PrayerTimes) (today : String)
    (env : FetchEnv) : PrayerTimes × Bool :=
  let pt0 := match stored with | .ok v => v | .error _ => PrayerTimes.zero
  let readFailed := match stored with | .ok _ => false | .error _ => true
  if readFailed || pt0.LastUpdate != today then
    match env.cityName with
    | .error _ => (pt0, false)
    | .ok cityName =>
      let cityId : Except Unit Int :=
        if cityName = pt0.CityName then .ok pt0.CityID else env.cityID
      match cityId with
      | .error _ => (pt0, false)
      | .ok cid =>
        match env.fetched with
        | .error _ => (PrayerTimes.zero, false)
        | .ok ptNew =>
          let pt1 := { ptNew with CityName := cityName, CityID := cid }
          if env.saveOk then (pt1, true) else (pt1, false)
  else (pt0, true)

/-! ## Configuration loading and defaults -/

/-- The operating systems `getOSCommand` distinguishes via `runtime.GOOS`. -/
inductive OS where
  | windows
  | linux
  | darwin
  | other
deriving Repr, DecidableEq

/-- `getOSCommand()`: the OS-appropriate screen-lock command. -/
def getOSCommand : OS → List String
  | .windows => ["rundll32.exe", "user32.dll,LockWorkStation"]
  | .linux => ["loginctl", "lock-session"]
  | .darwin => ["osascript", "-e",
      "tell application \"System Events\" to keystroke \"q\" using \x7bcontrol down, command down\x7d"]
  | .other => []

/-- `defaultConfig()` of main.go: the documented per-prayer defaults. -/
def defaultConfig (os : OS) : Config :=
  let screenLocker := getOSCommand os
  [ ("Fajr",
      { base := { Message := "Fajr Atha'an", Reminder := 0, Command := [], Sound := "athaan" }
        Before := ReminderConfig.zero
        After := { Message := "Fajr Iqa'ama", Reminder := 15, Command := screenLocker, Sound := "" } }),
    ("Sunrise",
      { base := { Message := "Sun has risen", Reminder := 0, Command := [], Sound := "athaan" }
        Before := ReminderConfig.zero
        After := { Message := "Duhaa time started", Reminder := 20, Command := [], Sound := "" } }),
    ("Zuhr",
      { base := { Message := "Zuhr Atha'an", Reminder := 0, Command := [], Sound := "athaan" }
        Before := { Message := "Duhaa prayer", Reminder := 90, Command := [], Sound := "" }
        After := { Message := "Zuhr Iqa'ama", Reminder := 15, Command := screenLocker, Sound := "" } }),
    ("Asr",
      { base := { Message := "Asr Atha'an", Reminder := 0, Command := [], Sound := "athaan" }
        Before := ReminderConfig.zero
        After := { Message := "Asr Iqa'ama", Reminder := 15, Command := screenLocker, Sound := "" } }),
    ("Maghrib",
      { base := { Message := "Maghrib Atha'an", Reminder := 0, Command := [], Sound := "athaan" }
        Before := { Message := "Maghrib Atha'an after 5 minutes", Reminder := 5, Command := [], Sound := "" }
        After := { Message := "Maghrib Iqa'ama", Reminder := 5, Command := screenLocker, Sound := "" } }),
    ("Isha",
      { base := { Message := "Isha Atha'an", Reminder := 0, Command := [], Sound := "athaan" }
        Before := ReminderConfig.zero
        After := { Message := "Isha Iqa'ama", Reminder := 15, Command := screenLocker, Sound := "" } }) ]

/-- The config-loading stage of `runMain`: on a successful read the file
content is used; on failure `defaultConfig()` is materialized and saved.
Returns the config the program continues with (`none` models the early
`return` when saving the defaults fails) and whether the defaults were
persisted during this call. -/
def loadConfigStage (loaded : Except Unit Config) (os : OS) (saveOk : Bool) :
    Option Config × Bool :=
  match loaded with
  | .ok c => (some c, false)
  | .error _ =>
    let c := defaultConfig os
    if saveOk then (some c, true) else (none, false)

/-! ## The dispatcher (`muezzin` and `playMP3`) -/

/-- The observable side-effect requests `muezzin` issues, in order. -/
inductive Action where
  | notify (title msg : String)
  | soundAttempt (path : String)
  | playbackStart (path : String)
  | runCmd (argv : List String)
deriving Repr, DecidableEq

/-- Path resolution at the top of `playMP3`: a ref not ending in ".mp3"
names an embedded asset `assets/<ref>.mp3`; otherwise the file is looked
up under the config path. -/
def resolveSoundPath (configPath filePath : String) : String :=
  if filePath.endsWith ".mp3" then configPath ++ "/" ++ filePath
  else "assets/" ++ filePath ++ ".mp3"

/-- Environment for `playMP3`: whether a path opens, whether its content
decodes as MP3, and whether the audio context comes up. -/
structure SoundEnv where
  openOk : String → Bool
  decodeOk : String → Bool
  audioCtxOk : Bool

/-- Trace of `playMP3(filePath)`: the open attempt on the resolved path
always happens; playback starts only if open, decode and audio-context
creation all succeed (each failure is an early `return`). -/
def playMP3Trace (env : SoundEnv) (configPath filePath : String) : List Action :=
  let path := resolveSoundPath configPath filePath
  Action.soundAttempt path ::
    (if env.openOk path ∧ env.decodeOk path ∧ env.audioCtxOk
     then [Action.playbackStart path] else [])

/-- `beeep.AppName` as set in `main()`. -/
def appName : String := "GoPray"

/-- Trace of `muezzin(reminderConfig)`: a notification if the message is
non-empty, then the unconditional `playMP3(reminderConfig.Sound)` call,
then the command if the argv list is non-empty. -/
def muezzinTrace (env : SoundEnv) (configPath : String) (rc : ReminderConfig) :
    List Action :=
  (if rc.Message.length > 0 then [Action.notify appName rc.Message] else [])
    ++ playMP3Trace env configPath rc.Sound
    ++ (if rc.Command ≠ [] then [Action.runCmd rc.Command] else [])

/-- Position of an action in `muezzin`'s fixed step order:
notification, then sound, then command. -/
def stepRank : Action → Nat
  | .notify _ _ => 0
  | .soundAttempt _ => 1
  | .playbackStart _ => 1
  | .runCmd _ => 2

/-! ## The ordering the specification claims for the planner output -/

/-- Rank of a prayer name in the specification's fixed enumeration
Fajr < Sunrise < Zuhr < Asr < Maghrib < Isha. -/
def nameRank : String → Nat
  | "Fajr" => 0
  | "Sunrise" => 1
  | "Zuhr" => 2
  | "Asr" => 3
  | "Maghrib" => 4
  | "Isha" => 5
  | _ => 6

/-- Rank of an event kind in the specification's order
before < at < after. -/
def kindRank : String → Nat
  | "before" => 0
  | "at" => 1
  | "after" => 2
  | _ => 3

/-- Modelled from the spec: the order the specification claims for the
planner output — ascending remaining duration, ties broken by
`PrayerName` enumeration order, then by kind order. -/
def specEventLE (a b : PrayerDuration) : Prop :=
  a.Duration < b.Duration ∨
    (a.Duration = b.Duration ∧
      (nameRank a.Name < nameRank b.Name ∨
        (nameRank a.Name = nameRank b.Name ∧ kindRank a.state ≤ kindRank b.state)))

instance : DecidableRel specEventLE := by
  unfold specEventLE
  intro a b
  infer_instance

/-! ## Helper lemmas -/

theorem string_length_pos_iff (s : String) : 0 < s.length ↔ s ≠ "" := by
  cases s with
  | mk data =>
    simp [String.length, Nat.pos_iff_ne_zero, String.ext_iff]

theorem minute_pos : (0 : Int) < Minute := by decide

theorem reminder_pos_of_scaled {r : Int} (h : 0 < r * Minute) : 0 < r := by
  by_contra hic
  push_neg at hic
  have : r * Minute ≤ 0 := mul_nonpos_of_nonpos_of_nonneg hic (le_of_lt minute_pos)
  omega

theorem mem_insertDur {x a : PrayerDuration} {l : List PrayerDuration} :
    x ∈ insertDur a l ↔ x = a ∨ x ∈ l := by
  induction l with
  | nil => simp [insertDur]
  | cons b t ih =>
    unfold insertDur
    by_cases h : a.Duration ≤ b.Duration
    · simp only [if_pos h, List.mem_cons]
    · simp only [if_neg h, List.mem_cons, ih]
      tauto

theorem pairwise_insertDur {a : PrayerDuration} {l : List PrayerDuration}
    (h : l.Pairwise (fun x y => x.Duration ≤ y.Duration)) :
    (insertDur a l).Pairwise (fun x y => x.Duration ≤ y.Duration) := by
  induction l with
  | nil => simp [insertDur]
  | cons b t ih =>
    rw [List.pairwise_cons] at h
    obtain ⟨hb, ht⟩ := h
    unfold insertDur
    by_cases hab : a.Duration ≤ b.Duration
    · simp only [if_pos hab, List.pairwise_cons]
      refine ⟨?_, hb, ht⟩
      intro y hy
      rcases List.mem_cons.mp hy with rfl | hy
      · exact hab
      · exact le_trans hab (hb y hy)
    · simp only [if_neg hab, List.pairwise_cons]
      push_neg at hab
      refine ⟨?_, ih ht⟩
      intro y hy
      rcases mem_insertDur.mp hy with rfl | hy
      · exact le_of_lt hab
      · exact hb y hy

theorem sortByDuration_pairwise (l : List PrayerDuration) :
    (sortByDuration l).Pairwise (fun x y => x.Duration ≤ y.Duration) := by
  induction l with
  | nil => simp [sortByDuration]
  | cons a t ih => exact pairwise_insertDur ih

theorem insertDur_perm (a : PrayerDuration) (l : List PrayerDuration) :
    List.Perm (insertDur a l) (a :: l) := by
  induction l with
  | nil => exact List.Perm.refl _
  | cons b t ih =>
    unfold insertDur
    by_cases h : a.Duration ≤ b.Duration
    · rw [if_pos h]
    · rw [if_neg h]
      exact (ih.cons b).trans (List.Perm.swap a b t)

theorem sortByDuration_perm (l : List PrayerDuration) :
    List.Perm (sortByDuration l) l := by
  induction l with
  | nil => exact List.Perm.refl _
  | cons a t ih =>
    show List.Perm (insertDur a (sortByDuration t)) (a :: t)
    exact (insertDur_perm a (sortByDuration t)).trans (ih.cons a)

theorem mem_sortByDuration {x : PrayerDuration} {l : List PrayerDuration} :
    x ∈ sortByDuration l ↔ x ∈ l := by
  induction l with
  | nil => simp [sortByDuration]
  | cons a t ih =>
    show x ∈ insertDur a (sortByDuration t) ↔ _
    rw [mem_insertDur, ih]
    simp

theorem getPrayerDurations_ok_inv {config : Config} {now : GoDuration}
    {pt : PrayerTimes} {old : PrayerDuration} {l : List PrayerDuration}
    {nx : PrayerDuration}
    (h : getPrayerDurations config now pt old = .ok (l, nx)) :
    ∃ l0, planDurations config now pt.Times = .ok l0 ∧
      l = sortByDuration l0 ∧ nx = updatedNext l old := by
  unfold getPrayerDurations at h
  cases hplan : planDurations config now pt.Times with
  | error e => rw [hplan] at h; cases h
  | ok l0 =>
    rw [hplan] at h
    simp only [Except.ok.injEq, Prod.mk.injEq] at h
    exact ⟨l0, rfl, h.1.symm, by rw [h.2.symm, h.1]⟩

theorem planDurations_ok_mem {config : Config} {now : GoDuration} :
    ∀ {ts : List Prayer} {l : List PrayerDuration},
      planDurations config now ts = .ok l → ∀ {x}, x ∈ l →
      ∃ p ∈ ts, ∃ evs, eventsFor config now p = some evs ∧ x ∈ evs := by
  intro ts
  induction ts with
  | nil =>
    intro l h x hx
    unfold planDurations at h
    injection h with h
    subst h
    cases hx
  | cons p rest ih =>
    intro l h x hx
    unfold planDurations at h
    cases hev : eventsFor config now p with
    | none => rw [hev] at h; cases h
    | some evs =>
      rw [hev] at h
      cases hrest : planDurations config now rest with
      | error e => rw [hrest] at h; cases h
      | ok l2 =>
        rw [hrest] at h
        injection h with h
        subst h
        rcases List.mem_append.mp hx with hx | hx
        · exact ⟨p, List.mem_cons_self p rest, evs, hev, hx⟩
        · obtain ⟨q, hq, evs2, hev2, hx2⟩ := ih hrest hx
          exact ⟨q, List.mem_cons_of_mem p hq, evs2, hev2, hx2⟩

theorem eventsFor_none_of_parse {config : Config} {now : GoDuration} {p : Prayer}
    (h : parseClock12 p.Time.data = none) : eventsFor config now p = none := by
  unfold eventsFor
  rw [h]

theorem planDurations_error_of_bad {config : Config} {now : GoDuration} :
    ∀ {ts : List Prayer} {p : Prayer}, p ∈ ts →
      parseClock12 p.Time.data = none →
      planDurations config now ts = .error () := by
  intro ts
  induction ts with
  | nil => intro p hp; cases hp
  | cons q rest ih =>
    intro p hp hbad
    unfold planDurations
    rcases List.mem_cons.mp hp with rfl | hp
    · rw [eventsFor_none_of_parse hbad]
    · cases hev : eventsFor config now q with
      | none => rfl
      | some evs => rw [ih hp hbad]

theorem updatedNext_eq_findD (s : List PrayerDuration) (old : PrayerDuration) :
    updatedNext s old = ((s.find? fun pd => pd.state == "at").getD old) := by
  cases s with
  | nil => rfl
  | cons a t =>
    unfold updatedNext
    simp only [List.isEmpty_cons, if_neg]
    cases h : (a :: t).find? fun pd => pd.state == "at" <;> simp [h]

theorem eventsFor_mem_props {config : Config} {now : GoDuration} {p : Prayer}
    {hm : Nat × Nat} {evs : List PrayerDuration}
    (hparse : parseClock12 p.Time.data = some hm)
    (hev : eventsFor config now p = some evs) {e : PrayerDuration} (he : e ∈ evs) :
    e.Name = p.Name ∧ 0 < e.Duration ∧
      (e.state = "before" →
        0 < (Config.get config p.Name).Before.Reminder ∧ now < atInstant hm) ∧
      (e.state = "at" → now < atInstant hm) ∧
      (e.state = "after" → 0 < (Config.get config p.Name).After.Reminder) ∧
      (e.state = "before" ∨ e.state = "at" ∨ e.state = "after") := by
  unfold eventsFor at hev
  rw [hparse] at hev
  simp only [Option.some.injEq] at hev
  subst hev
  rcases List.mem_append.mp he with he | he
  · rcases List.mem_append.mp he with he | he
    · -- before event
      by_cases hc : atInstant hm - now - (Config.get config p.Name).Before.Reminder * Minute > 0 ∧
          (Config.get config p.Name).Before.Reminder * Minute > 0
      · rw [if_pos hc] at he
        simp only [List.mem_singleton] at he
        subst he
        obtain ⟨h1, h2⟩ := hc
        have hr := reminder_pos_of_scaled h2
        refine ⟨rfl, h1, ?_, ?_, ?_, ?_⟩
        · intro _; exact ⟨hr, by linarith⟩
        · intro h; simp at h
        · intro h; simp at h
        · left; rfl
      · rw [if_neg hc] at he; cases he
    · -- at event
      by_cases hc : atInstant hm - now > 0
      · rw [if_pos hc] at he
        simp only [List.mem_singleton] at he
        subst he
        refine ⟨rfl, hc, ?_, ?_, ?_, ?_⟩
        · intro h; simp at h
        · intro _; linarith
        · intro h; simp at h
        · right; left; rfl
      · rw [if_neg hc] at he; cases he
  · -- after event
    by_cases hc : atInstant hm - now + (Config.get config p.Name).After.Reminder * Minute > 0 ∧
        (Config.get config p.Name).After.Reminder * Minute > 0
    · rw [if_pos hc] at he
      simp only [List.mem_singleton] at he
      subst he
      obtain ⟨h1, h2⟩ := hc
      refine ⟨rfl, h1, ?_, ?_, ?_, ?_⟩
      · intro h; simp at h
      · intro h; simp at h
      · intro _; exact reminder_pos_of_scaled h2
      · right; right; rfl
    · rw [if_neg hc] at he; cases he

/-! ## Claim C1 -/

/-- C1: counterexample.  With Fajr timed at 5:00 AM, the current instant
5:05 AM (so the at-instant is before `now`) and an After offset of 15
minutes, `getPrayerDurations` still emits an "after" event for Fajr.  A
prayer whose at-instant has passed therefore does not always produce zero
events, contrary to the claim. -/
theorem C1_counterexample :
    parseClock12 ("5:00 AM".data) = some (5, 0) ∧
    atInstant (5, 0) ≤ (5 * 3600 + 300) * Second ∧
    getPrayerDurations
        [("Fajr", ⟨ReminderConfig.zero, ReminderConfig.zero,
          ⟨"Fajr Iqa'ama", 15, [], ""⟩⟩)]
        ((5 * 3600 + 300) * Second)
        ⟨"", "", 0, [⟨"Fajr", "5:00 AM"⟩]⟩ PrayerDuration.zero
      = .ok ([⟨"Fajr", 600 * Second, "after"⟩], PrayerDuration.zero) := by
  refine ⟨rfl, by decide, rfl⟩

/-- C1 (amended): for every prayer entry whose at-instant is at or before
`now`, the planner emits no "before" and no "at" event for that entry;
any event the entry still contributes is an "after" event with strictly
positive remaining duration, possible only when the entry's After offset
is positive. -/
theorem C1_amended {config : Config} {now : GoDuration} {p : Prayer}
    {hm : Nat × Nat} {evs : List PrayerDuration}
    (hparse : parseClock12 p.Time.data = some hm)
    (hpast : atInstant hm ≤ now)
    (hev : eventsFor config now p = some evs) :
    ∀ e ∈ evs, e.state = "after" ∧ 0 < e.Duration ∧
      0 < (Config.get config p.Name).After.Reminder := by
  intro e he
  obtain ⟨hname, hdur, hbef, hat, haft, hstates⟩ := eventsFor_mem_props hparse hev he
  rcases hstates with h | h | h
  · exact absurd (hbef h).2 (not_lt.mpr hpast)
  · exact absurd (hat h) (not_lt.mpr hpast)
  · exact ⟨h, hdur, haft h⟩

/-- C1 (amended), witnessed at the counterexample input. -/
theorem C1_amended_witness :
    (⟨"Fajr", 600 * Second, "after"⟩ : PrayerDuration).state = "after" ∧
      0 < (⟨"Fajr", 600 * Second, "after"⟩ : PrayerDuration).Duration ∧
      0 < (Config.get
            [("Fajr", ⟨ReminderConfig.zero, ReminderConfig.zero,
              ⟨"Fajr Iqa'ama", 15, [], ""⟩⟩)]
            (Prayer.mk "Fajr" "5:00 AM").Name).After.Reminder :=
  @C1_amended
    [("Fajr", ⟨ReminderConfig.zero, ReminderConfig.zero,
      ⟨"Fajr Iqa'ama", 15, [], ""⟩⟩)]
    ((5 * 3600 + 300) * Second)
    ⟨"Fajr", "5:00 AM"⟩ (5, 0) [⟨"Fajr", 600 * Second, "after"⟩]
    (by rfl) (by decide) (by rfl) _ (List.mem_singleton.mpr rfl)

/-! ## Claim C2 -/

/-- C2: counterexample.  A timetable with one malformed entry ("bad") and
one well-formed entry makes the planner fail as a whole: the result is an
error and no events are produced for any prayer, rather than skipping just
the malformed one. -/
theorem C2_counterexample :
    parseClock12 ("bad".data) = none ∧
    parseClock12 ("1:00 PM".data) = some (13, 0) ∧
    getPrayerDurations [] 0
        ⟨"", "", 0, [⟨"Fajr", "bad"⟩, ⟨"Zuhr", "1:00 PM"⟩]⟩
        PrayerDuration.zero = .error () :=
  ⟨rfl, rfl, rfl⟩

/-- C2 (amended): a malformed time-of-day for any one prayer makes
`getPrayerDurations` fail as a whole — it returns an error and no events
for any prayer, well-formed entries included; the caller logs the error
and returns, so planning does not proceed for the rest in that run. -/
theorem C2_amended {config : Config} {now : GoDuration} {pt : PrayerTimes}
    {old : PrayerDuration} {p : Prayer}
    (hp : p ∈ pt.Times) (hbad : parseClock12 p.Time.data = none) :
    getPrayerDurations config now pt old = .error () := by
  unfold getPrayerDurations
  rw [planDurations_error_of_bad hp hbad]

/-- C2 (amended), witnessed at a concrete malformed entry. -/
theorem C2_amended_witness :
    getPrayerDurations [] 0 ⟨"", "", 0, [⟨"Asr", "25:99"⟩]⟩
        PrayerDuration.zero = .error () :=
  @C2_amended [] 0 ⟨"", "", 0, [⟨"Asr", "25:99"⟩]⟩ PrayerDuration.zero
    ⟨"Asr", "25:99"⟩ (List.mem_singleton.mpr rfl) (by rfl)

/-! ## Claim C3 -/

/-- C3: counterexample.  Two timetable rows with the same time (Isha
listed first, then Fajr) plan two "at" events with equal durations, in
that row order.  The sorted slice here has two elements, which is inside
the regime where Go's `sort.Slice` provably runs its insertion sort
(length < 12) and so performs no swap on the equal pair: the program's
output keeps Isha before Fajr, violating the claimed PrayerName
tie-break (Fajr < Isha). -/
theorem C3_counterexample :
    planDurations [] 0 [⟨"Isha", "1:00 PM"⟩, ⟨"Fajr", "1:00 PM"⟩]
      = .ok [⟨"Isha", 46800 * Second, "at"⟩, ⟨"Fajr", 46800 * Second, "at"⟩] ∧
    getPrayerDurations [] 0
        ⟨"", "", 0, [⟨"Isha", "1:00 PM"⟩, ⟨"Fajr", "1:00 PM"⟩]⟩
        PrayerDuration.zero
      = .ok ([⟨"Isha", 46800 * Second, "at"⟩, ⟨"Fajr", 46800 * Second, "at"⟩],
          ⟨"Isha", 46800 * Second, "at"⟩) ∧
    ¬ List.Pairwise specEventLE
        [⟨"Isha", 46800 * Second, "at"⟩, ⟨"Fajr", 46800 * Second, "at"⟩] := by
  refine ⟨rfl, rfl, ?_⟩
  intro h
  rw [List.pairwise_cons] at h
  have h1 := h.1 _ (List.mem_singleton.mpr rfl)
  rcases h1 with h1 | h1
  · exact absurd h1 (by decide)
  · rcases h1.2 with h2 | h2
    · exact absurd h2 (by decide)
    · exact absurd h2.1 (by decide)

/-- C3 (amended): the planner output is a permutation of the planned
events sorted ascending (non-strictly) by remaining duration — which is
all `sort.Slice`, being documented unstable, guarantees: no particular
relative order of equal-duration events is promised, and the
PrayerName-then-kind tie-break in particular does not hold. -/
theorem C3_amended {config : Config} {now : GoDuration} {pt : PrayerTimes}
    {old : PrayerDuration} {l : List PrayerDuration} {nx : PrayerDuration}
    {l0 : List PrayerDuration}
    (hok : getPrayerDurations config now pt old = .ok (l, nx))
    (hplan : planDurations config now pt.Times = .ok l0) :
    l.Pairwise (fun a b => a.Duration ≤ b.Duration) ∧ List.Perm l l0 := by
  obtain ⟨l0', hplan', rfl, _⟩ := getPrayerDurations_ok_inv hok
  rw [hplan'] at hplan
  injection hplan with hplan
  subst hplan
  exact ⟨sortByDuration_pairwise _, sortByDuration_perm _⟩

/-- C3 (amended), witnessed at the tie input. -/
theorem C3_amended_witness :
    List.Pairwise (fun a b => a.Duration ≤ b.Duration)
      [(⟨"Isha", 46800 * Second, "at"⟩ : PrayerDuration),
        ⟨"Fajr", 46800 * Second, "at"⟩] ∧
    List.Perm
      [(⟨"Isha", 46800 * Second, "at"⟩ : PrayerDuration),
        ⟨"Fajr", 46800 * Second, "at"⟩]
      [⟨"Isha", 46800 * Second, "at"⟩, ⟨"Fajr", 46800 * Second, "at"⟩] :=
  @C3_amended [] 0 ⟨"", "", 0, [⟨"Isha", "1:00 PM"⟩, ⟨"Fajr", "1:00 PM"⟩]⟩
    PrayerDuration.zero
    [⟨"Isha", 46800 * Second, "at"⟩, ⟨"Fajr", 46800 * Second, "at"⟩]
    ⟨"Isha", 46800 * Second, "at"⟩
    [⟨"Isha", 46800 * Second, "at"⟩, ⟨"Fajr", 46800 * Second, "at"⟩]
    (by rfl) (by rfl)

theorem eventsFor_some_parse {config : Config} {now : GoDuration} {p : Prayer}
    {evs : List PrayerDuration} (hev : eventsFor config now p = some evs) :
    ∃ hm, parseClock12 p.Time.data = some hm := by
  unfold eventsFor at hev
  cases hq : parseClock12 p.Time.data with
  | none => rw [hq] at hev; cases hev
  | some hm => exact ⟨hm, rfl⟩

/-! ## Claim C4 -/

/-- C4: counterexample.  With a stale cached timetable, a successful city
name lookup (same city, so the saved id is reused) and a failing
prayer-times retrieval, the refresh stage overwrites the in-memory cached
timetable with the zero `PrayerTimes` value instead of retaining it. -/
theorem C4_counterexample :
    refreshPrayerTimes
        (.ok ⟨"01-01-2026", "X", 7, [⟨"Fajr", "5:00 AM"⟩]⟩) "02-01-2026"
        ⟨.ok "X", .ok 9, .error (), true⟩
      = (PrayerTimes.zero, false) ∧
    (⟨"01-01-2026", "X", 7, [⟨"Fajr", "5:00 AM"⟩]⟩ : PrayerTimes).LastUpdate
        ≠ "02-01-2026" ∧
    PrayerTimes.zero ≠ (⟨"01-01-2026", "X", 7, [⟨"Fajr", "5:00 AM"⟩]⟩ : PrayerTimes) := by
  refine ⟨rfl, by decide, by decide⟩

/-- C4 (amended): when the stored timetable is stale, a city-name or
city-id lookup failure leaves the cached timetable value unchanged and the
refresh returns without scheduling (non-fatal); a prayer-times retrieval
failure, however, replaces the in-memory timetable with the zero value
(only the on-disk copy survives), still non-fatally, and the fetch is
re-attempted only when the refresh runs again. -/
theorem C4_amended {pt0 : PrayerTimes} {today : String} {env : FetchEnv}
    (hstale : pt0.LastUpdate ≠ today) :
    (env.cityName = .error () →
      refreshPrayerTimes (.ok pt0) today env = (pt0, false)) ∧
    (∀ cn, env.cityName = .ok cn → cn ≠ pt0.CityName → env.cityID = .error () →
      refreshPrayerTimes (.ok pt0) today env = (pt0, false)) ∧
    (∀ cn, env.cityName = .ok cn →
      (cn = pt0.CityName ∨ ∃ cid, env.cityID = .ok cid) →
      env.fetched = .error () →
      refreshPrayerTimes (.ok pt0) today env = (PrayerTimes.zero, false)) := by
  obtain ⟨ecn, ecid, eft, esv⟩ := env
  have hb : (pt0.LastUpdate != today) = true := bne_iff_ne.mpr hstale
  refine ⟨?_, ?_, ?_⟩
  · intro hcn
    simp only at hcn
    subst hcn
    simp [refreshPrayerTimes, hb]
  · intro cn hcn hne hcid
    simp only at hcn hcid
    subst hcn
    subst hcid
    simp [refreshPrayerTimes, hb, hne]
  · intro cn hcn hres hft
    simp only at hcn hft
    subst hcn
    subst hft
    by_cases hcc : cn = pt0.CityName
    · simp [refreshPrayerTimes, hb, hcc]
    · rcases hres with hres | ⟨cid, hres⟩
      · exact absurd hres hcc
      · simp only at hres
        subst hres
        simp [refreshPrayerTimes, hb, hcc]

/-- C4 (amended), witnessed: a city-id lookup failure retains the cached
timetable. -/
theorem C4_amended_witness :
    refreshPrayerTimes (.ok ⟨"01-01-2026", "X", 7, []⟩) "02-01-2026"
        ⟨.ok "Y", .error (), .ok PrayerTimes.zero, true⟩
      = (⟨"01-01-2026", "X", 7, []⟩, false) :=
  (@C4_amended ⟨"01-01-2026", "X", 7, []⟩ "02-01-2026"
      ⟨.ok "Y", .error (), .ok PrayerTimes.zero, true⟩
      (by decide)).2.1 "Y" rfl (by decide) rfl

/-! ## Claim C5 -/

/-- C5: counterexample.  A run whose sorted event list contains no
"at"-kind event (here: one "after" event for a passed prayer) leaves
`next_prayer` at its previous value instead of making it absent (the zero
`PrayerDuration` that the menu code treats as "no next prayer"). -/
theorem C5_counterexample :
    getPrayerDurations
        [("Fajr", ⟨ReminderConfig.zero, ReminderConfig.zero, ⟨"", 90, [], ""⟩⟩)]
        ((2 * 3600) * Second)
        ⟨"", "", 0, [⟨"Fajr", "1:00 AM"⟩]⟩
        ⟨"Zuhr", 100, "at"⟩
      = .ok ([⟨"Fajr", 1800 * Second, "after"⟩], ⟨"Zuhr", 100, "at"⟩) ∧
    ([⟨"Fajr", 1800 * Second, "after"⟩] : List PrayerDuration).find?
        (fun pd => pd.state == "at") = none ∧
    (⟨"Zuhr", 100, "at"⟩ : PrayerDuration) ≠ PrayerDuration.zero := by
  refine ⟨rfl, rfl, by decide⟩

/-- C5 (amended): after a successful planning run, `next_prayer` equals
the first "at"-kind event of the sorted sequence when one exists; when
none exists it keeps its previous value (it is not reset to the absent
zero value). -/
theorem C5_amended {config : Config} {now : GoDuration} {pt : PrayerTimes}
    {old : PrayerDuration} {l : List PrayerDuration} {nx : PrayerDuration}
    (hok : getPrayerDurations config now pt old = .ok (l, nx)) :
    nx = ((l.find? fun pd => pd.state == "at").getD old) := by
  obtain ⟨l0, _, rfl, hnx⟩ := getPrayerDurations_ok_inv hok
  rw [hnx, updatedNext_eq_findD]

/-- C5 (amended), witnessed: with an "at" event present, `next_prayer` is
the first one. -/
theorem C5_amended_witness :
    (⟨"Zuhr", 16200 * Second, "at"⟩ : PrayerDuration) =
      ((([⟨"Zuhr", 10800 * Second, "before"⟩,
          ⟨"Zuhr", 16200 * Second, "at"⟩] : List PrayerDuration).find?
        fun pd => pd.state == "at").getD PrayerDuration.zero) :=
  @C5_amended
    [("Zuhr", ⟨ReminderConfig.zero, ⟨"Duhaa prayer", 90, [], ""⟩,
      ReminderConfig.zero⟩)]
    ((8 * 3600) * Second)
    ⟨"", "", 0, [⟨"Zuhr", "12:30 PM"⟩]⟩
    PrayerDuration.zero
    [⟨"Zuhr", 10800 * Second, "before"⟩, ⟨"Zuhr", 16200 * Second, "at"⟩]
    ⟨"Zuhr", 16200 * Second, "at"⟩ (by rfl)

/-! ## Claim C6 -/

/-- C6: every event in the planner output has strictly positive remaining
duration, and a "before" ("after") event is only ever emitted for a
prayer whose Before (After) Reminder offset is strictly positive — a zero
offset disables that kind entirely. -/
theorem C6_event_invariants {config : Config} {now : GoDuration}
    {pt : PrayerTimes} {old : PrayerDuration} {l : List PrayerDuration}
    {nx : PrayerDuration}
    (hok : getPrayerDurations config now pt old = .ok (l, nx))
    {e : PrayerDuration} (he : e ∈ l) :
    0 < e.Duration ∧
      (e.state = "before" → 0 < (Config.get config e.Name).Before.Reminder) ∧
      (e.state = "after" → 0 < (Config.get config e.Name).After.Reminder) := by
  obtain ⟨l0, hplan, rfl, _⟩ := getPrayerDurations_ok_inv hok
  have he0 := mem_sortByDuration.mp he
  obtain ⟨p, hp, evs, hev, hee⟩ := planDurations_ok_mem hplan he0
  obtain ⟨hm, hparse⟩ := eventsFor_some_parse hev
  obtain ⟨hname, hdur, hbef, hat, haft, _⟩ := eventsFor_mem_props hparse hev hee
  rw [hname]
  exact ⟨hdur, fun h => (hbef h).1, haft⟩

/-- C6, witnessed at the specification's own example (Zuhr at 12:30 PM,
Before offset 90, now 8:00). -/
theorem C6_witness :
    0 < (⟨"Zuhr", 10800 * Second, "before"⟩ : PrayerDuration).Duration ∧
      ((⟨"Zuhr", 10800 * Second, "before"⟩ : PrayerDuration).state = "before" →
        0 < (Config.get
          [("Zuhr", ⟨ReminderConfig.zero, ⟨"Duhaa prayer", 90, [], ""⟩,
            ReminderConfig.zero⟩)]
          (⟨"Zuhr", 10800 * Second, "before"⟩ : PrayerDuration).Name).Before.Reminder) ∧
      ((⟨"Zuhr", 10800 * Second, "before"⟩ : PrayerDuration).state = "after" →
        0 < (Config.get
          [("Zuhr", ⟨ReminderConfig.zero, ⟨"Duhaa prayer", 90, [], ""⟩,
            ReminderConfig.zero⟩)]
          (⟨"Zuhr", 10800 * Second, "before"⟩ : PrayerDuration).Name).After.Reminder) :=
  @C6_event_invariants
    [("Zuhr", ⟨ReminderConfig.zero, ⟨"Duhaa prayer", 90, [], ""⟩,
      ReminderConfig.zero⟩)]
    ((8 * 3600) * Second)
    ⟨"", "", 0, [⟨"Zuhr", "12:30 PM"⟩]⟩
    PrayerDuration.zero
    [⟨"Zuhr", 10800 * Second, "before"⟩, ⟨"Zuhr", 16200 * Second, "at"⟩]
    ⟨"Zuhr", 16200 * Second, "at"⟩ (by rfl)
    ⟨"Zuhr", 10800 * Second, "before"⟩ (List.mem_cons_self _ _)

/-! ## Claim C8 -/

/-- C8: counterexample.  With an empty soundRef the dispatcher still
invokes the sound-playback step: `muezzin` calls `playMP3` with the empty
string, which attempts to open the embedded file "assets/.mp3".  The
claimed "sound playback is invoked only if spec.soundRef is non-empty" is
therefore false at the invocation level. -/
theorem C8_counterexample :
    ReminderConfig.zero.Sound = "" ∧
    muezzinTrace ⟨fun _ => false, fun _ => false, false⟩ "" ReminderConfig.zero
      = [Action.soundAttempt "assets/.mp3"] :=
  ⟨rfl, rfl⟩

/-- C8 (amended): `muezzin` performs its steps in the fixed order
notification → sound → command; the notification is requested iff the
message is non-empty, the command runs iff the argv list is non-empty,
and a failing step never suppresses the following steps — but the sound
step is invoked unconditionally, even for an empty soundRef, actual
playback starting exactly when the resolved file opens, decodes, and the
audio context comes up. -/
theorem C8_amended (env : SoundEnv) (configPath : String) (rc : ReminderConfig) :
    (Action.notify appName rc.Message ∈ muezzinTrace env configPath rc ↔
      rc.Message ≠ "") ∧
    Action.soundAttempt (resolveSoundPath configPath rc.Sound) ∈
      muezzinTrace env configPath rc ∧
    (Action.playbackStart (resolveSoundPath configPath rc.Sound) ∈
        muezzinTrace env configPath rc ↔
      (env.openOk (resolveSoundPath configPath rc.Sound) ∧
        env.decodeOk (resolveSoundPath configPath rc.Sound) ∧ env.audioCtxOk)) ∧
    (Action.runCmd rc.Command ∈ muezzinTrace env configPath rc ↔
      rc.Command ≠ []) ∧
    (muezzinTrace env configPath rc).Pairwise
      (fun a b => stepRank a ≤ stepRank b) := by
  by_cases hM : 0 < rc.Message.length <;>
    by_cases hS : env.openOk (resolveSoundPath configPath rc.Sound) ∧
        env.decodeOk (resolveSoundPath configPath rc.Sound) ∧ env.audioCtxOk <;>
      by_cases hC : rc.Command ≠ [] <;>
        simp [muezzinTrace, playMP3Trace, hM, hS, hC, stepRank,
          List.pairwise_cons, ← string_length_pos_iff]

/-! ## Claim C9 -/

/-- C9: when loading the configuration file fails, the default
configuration is materialized and persisted (given the save succeeds) and
startup continues with it — the path is not fatal — and the defaults
carry the documented per-prayer message texts, offset minutes, and the
OS-appropriate lock command on the designated After reminders (every
prayer except Sunrise). -/
theorem C9_default_config (os : OS) :
    loadConfigStage (.error ()) os true = (some (defaultConfig os), true) ∧
    Config.get (defaultConfig os) "Fajr" =
      ⟨⟨"Fajr Atha'an", 0, [], "athaan"⟩, ReminderConfig.zero,
        ⟨"Fajr Iqa'ama", 15, getOSCommand os, ""⟩⟩ ∧
    Config.get (defaultConfig os) "Sunrise" =
      ⟨⟨"Sun has risen", 0, [], "athaan"⟩, ReminderConfig.zero,
        ⟨"Duhaa time started", 20, [], ""⟩⟩ ∧
    Config.get (defaultConfig os) "Zuhr" =
      ⟨⟨"Zuhr Atha'an", 0, [], "athaan"⟩, ⟨"Duhaa prayer", 90, [], ""⟩,
        ⟨"Zuhr Iqa'ama", 15, getOSCommand os, ""⟩⟩ ∧
    Config.get (defaultConfig os) "Asr" =
      ⟨⟨"Asr Atha'an", 0, [], "athaan"⟩, ReminderConfig.zero,
        ⟨"Asr Iqa'ama", 15, getOSCommand os, ""⟩⟩ ∧
    Config.get (defaultConfig os) "Maghrib" =
      ⟨⟨"Maghrib Atha'an", 0, [], "athaan"⟩,
        ⟨"Maghrib Atha'an after 5 minutes", 5, [], ""⟩,
        ⟨"Maghrib Iqa'ama", 5, getOSCommand os, ""⟩⟩ ∧
    Config.get (defaultConfig os) "Isha" =
      ⟨⟨"Isha Atha'an", 0, [], "athaan"⟩, ReminderConfig.zero,
        ⟨"Isha Iqa'ama", 15, getOSCommand os, ""⟩⟩ ∧
    getOSCommand OS.linux = ["loginctl", "lock-session"] ∧
    getOSCommand OS.windows = ["rundll32.exe", "user32.dll,LockWorkStation"] := by
  refine ⟨rfl, ?_, ?_, ?_, ?_, ?_, ?_, rfl, rfl⟩ <;> rfl

/-! ## Claim C10 -/

/-- C10: a prayer entry whose name is not a key of the config map falls
back to the zero `PrayerConfig` (all offsets 0, empty message, sound and
command), so the entry yields at most the single "at" event — emitted
only when its time is still ahead — and never a "before" or "after"
event. -/
theorem C10_missing_config {config : Config} {now : GoDuration} {p : Prayer}
    {evs : List PrayerDuration}
    (hmiss : config.find? (fun kv => kv.1 == p.Name) = none)
    (hev : eventsFor config now p = some evs) :
    Config.get config p.Name = PrayerConfig.zero ∧
    evs.length ≤ 1 ∧ ∀ e ∈ evs, e.state = "at" ∧ 0 < e.Duration := by
  have hget : Config.get config p.Name = PrayerConfig.zero := by
    unfold Config.get
    rw [hmiss]
  obtain ⟨hm, hparse⟩ := eventsFor_some_parse hev
  unfold eventsFor at hev
  rw [hparse] at hev
  simp only [Option.some.injEq] at hev
  rw [hget] at hev
  by_cases hc : atInstant hm - now > 0
  · simp only [PrayerConfig.zero, ReminderConfig.zero, zero_mul, gt_iff_lt,
      lt_self_iff_false, and_false, if_false, if_pos hc, List.nil_append,
      List.append_nil] at hev
    subst hev
    refine ⟨hget, by simp, ?_⟩
    intro e he
    simp only [List.mem_singleton] at he
    subst he
    exact ⟨rfl, hc⟩
  · simp only [PrayerConfig.zero, ReminderConfig.zero, zero_mul, gt_iff_lt,
      lt_self_iff_false, and_false, if_false, if_neg hc, List.nil_append,
      List.append_nil] at hev
    subst hev
    refine ⟨hget, by simp, ?_⟩
    intro e he
    cases he

/-- C10, witnessed: the empty config map and a future Fajr entry yield
exactly the single "at" event. -/
theorem C10_witness :
    Config.get [] (Prayer.mk "Fajr" "5:00 AM").Name = PrayerConfig.zero ∧
    ([⟨"Fajr", 18000 * Second, "at"⟩] : List PrayerDuration).length ≤ 1 ∧
    ((⟨"Fajr", 18000 * Second, "at"⟩ : PrayerDuration).state = "at" ∧
      0 < (⟨"Fajr", 18000 * Second, "at"⟩ : PrayerDuration).Duration) := by
  have h := @C10_missing_config [] 0 ⟨"Fajr", "5:00 AM"⟩
    [⟨"Fajr", 18000 * Second, "at"⟩] (by rfl) (by rfl)
  exact ⟨h.1, h.2.1, h.2.2 _ (List.mem_singleton.mpr rfl)⟩

end GoPray
